import Mathlib

set_option maxRecDepth 100000

/-!
Verification development for the audit-monitor risk pipeline.

The definitions below are a shallow embedding of the Deno/TypeScript source:
* `supabase/functions/analyze-transactions/index.ts` — rate limiter,
  duplicate grouper (`buildDuplicateGroups`), membership test (`isDuplicate`),
  the ordered rule chain (`analyzeTransaction`), the assessment batch map and
  the AI-merge step of the `serve` handler;
* the report-generation function — its rate limiter, session lookup,
  upstream-failure handling and error sanitizer.

JavaScript numbers are modelled as exact rationals (`ℚ`); `Math.round` is
`⌊x + 1/2⌋`.  JavaScript string trim / toUpperCase / toLowerCase / includes
are modelled character-listwise (ASCII case mapping).  `Map` objects are
modelled as insertion-ordered association lists, which is how iteration order
behaves in JavaScript.
-/

/-- `Math.round`: round half towards positive infinity. -/
def jsRound (q : ℚ) : Int := ⌊q + 1/2⌋

/-- JavaScript `String.prototype.trim` (whitespace at both ends removed). -/
def jsTrim (s : String) : String :=
  String.mk (((s.data.dropWhile Char.isWhitespace).reverse.dropWhile Char.isWhitespace).reverse)

/-- JavaScript `String.prototype.toUpperCase` (ASCII case mapping). -/
def jsToUpper (s : String) : String := String.mk (s.data.map Char.toUpper)

/-- JavaScript `String.prototype.toLowerCase` (ASCII case mapping). -/
def jsToLower (s : String) : String := String.mk (s.data.map Char.toLower)

/-- Does the second list occur as a leading segment of the first list? -/
def leadsWith : List Char → List Char → Bool
  | _, [] => true
  | [], _ :: _ => false
  | c :: cs, p :: ps => p == c && leadsWith cs ps

/-- Does `cs` contain `ps` as a contiguous sublist? -/
def hasSub (ps : List Char) : List Char → Bool
  | [] => ps.isEmpty
  | c :: cs => leadsWith (c :: cs) ps || hasSub ps cs

/-- JavaScript `String.prototype.includes`. -/
def strIncludes (s pat : String) : Bool := hasSub pat.data s.data

/-- `Array.prototype.join` with a separator. -/
def joinSep (sep : String) : List String → String
  | [] => ""
  | [x] => x
  | x :: y :: xs => x ++ sep ++ joinSep sep (y :: xs)

/-- Insert a comma after every third character of a reversed digit list. -/
def insertCommasRev : List Char → Nat → List Char
  | [], _ => []
  | [c], _ => [c]
  | c :: c2 :: cs, k =>
    if k % 3 = 2 then c :: ',' :: insertCommasRev (c2 :: cs) (k + 1)
    else c :: insertCommasRev (c2 :: cs) (k + 1)

/-- Group the digits of a decimal-digit string in threes with commas. -/
def commaGroup (s : String) : String :=
  String.mk ((insertCommasRev s.data.reverse 0).reverse)

/-- Zero-pad a natural number to three digits. -/
def pad3 (n : Nat) : String :=
  if n < 10 then "00" ++ toString n
  else if n < 100 then "0" ++ toString n
  else toString n

/-- Fractional suffix of `Number.prototype.toLocaleString` from a count of
thousandths (at most three fractional digits, trailing zeros dropped). -/
def fracSuffix (frac : Nat) : String :=
  if frac = 0 then ""
  else if frac % 100 = 0 then "." ++ toString (frac / 100)
  else if frac % 10 = 0 then "." ++ (if frac / 10 < 10 then "0" else "") ++ toString (frac / 10)
  else "." ++ pad3 frac

/-- `Number.prototype.toLocaleString` (default locale: thousands separated by
commas, at most three fractional digits). -/
def toLocaleString (q : ℚ) : String :=
  (if jsRound (q * 1000) < 0 then "-" else "") ++
  commaGroup (toString ((jsRound (q * 1000)).natAbs / 1000)) ++
  fracSuffix ((jsRound (q * 1000)).natAbs % 1000)

/-- A transaction record as received by the analyze entry point. -/
structure Transaction where
  id : String
  transaction_id : String
  transaction_date : String
  amount : ℚ
  vendor_name : String
  vendor_country : String
  payment_method : String
  department : String
  description : String
deriving DecidableEq

/-- Severity of a risk factor. -/
inductive Severity where
  | HIGH
  | MEDIUM
deriving DecidableEq

/-- A typed marker recording why a rule fired. -/
structure RiskFactor where
  type : String
  description : String
  severity : Severity
deriving DecidableEq

/-- Risk tier. -/
inductive RiskLevel where
  | low
  | medium
  | high
deriving DecidableEq

/-- Result of the rule chain for one transaction. -/
structure RiskResult where
  level : RiskLevel
  factors : List RiskFactor
  score : Nat
  why : String
deriving DecidableEq

/-- Vendor countries that trigger MEDIUM risk (strict rule list). -/
def MEDIUM_RISK_COUNTRIES : List String := ["PANAMA", "UAE"]

/-- Normalized (trimmed, uppercased) vendor name of a transaction. -/
def txVendorKey (t : Transaction) : String := jsToUpper (jsTrim t.vendor_name)

/-- Amount in cents, `Math.round(amount * 100)`. -/
def txCents (t : Transaction) : Int := jsRound (t.amount * 100)

/-- The duplicate-group key string `VENDOR|DATE|AMOUNT`. -/
def txKey (t : Transaction) : String :=
  txVendorKey t ++ "|" ++ t.transaction_date ++ "|" ++ toString (txCents t)

/-- The key a transaction contributes to the duplicate groups, `none` when the
vendor name is blank (such transactions are skipped by the grouper). -/
def txKeyOpt (t : Transaction) : Option String :=
  if txVendorKey t = "" then none else some (txKey t)

/-- `Map.set` pushing an id onto the array at `key` (insertion-ordered map). -/
def insertGroup : List (String × List String) → String → String → List (String × List String)
  | [], key, id => [(key, [id])]
  | (k, ids) :: rest, key, id =>
    if k = key then (k, ids ++ [id]) :: rest
    else (k, ids) :: insertGroup rest key id

/-- One iteration of the grouping loop: skip blank vendors, otherwise push the
transaction id onto its key's group. -/
def addTx (groups : List (String × List String)) (tx : Transaction) : List (String × List String) :=
  match txKeyOpt tx with
  | none => groups
  | some key => insertGroup groups key tx.id

/-- `buildDuplicateGroups`: dataset-level duplicate groups, keyed by
normalized vendor + date + amount-in-cents. -/
def buildDuplicateGroups (transactions : List Transaction) : List (String × List String) :=
  transactions.foldl addTx []

/-- `isDuplicate`: scan all groups, return the first group of size > 1 that
contains the transaction id, with its size. -/
def isDuplicate (txId : String) : List (String × List String) → Bool × Nat
  | [] => (false, 0)
  | (_, ids) :: rest =>
    if txId ∈ ids ∧ 1 < ids.length then (true, ids.length)
    else isDuplicate txId rest

/-- Normalized vendor country ("UNITED ARAB EMIRATES" collapsed to "UAE"). -/
def normCountry (c : String) : String :=
  if jsToUpper (jsTrim c) = "UNITED ARAB EMIRATES" then "UAE" else jsToUpper (jsTrim c)

/-- Rule 4 counter: transactions in the batch sharing normalized vendor name
and date with the given transaction. -/
def freqCount (transaction : Transaction) (allTransactions : List Transaction) : Nat :=
  (allTransactions.filter (fun t =>
    decide (txVendorKey t = txVendorKey transaction ∧
            t.transaction_date = transaction.transaction_date))).length

/-- Rule 1 outcome (duplicate transaction, HIGH, score 90). -/
def dupOutcome (count : Nat) : RiskResult :=
  { level := .high
    score := 90
    why := "Rule 1 triggered: Duplicate transaction (" ++ toString count ++ " occurrences)"
    factors := [{ type := "duplicate_transaction"
                  description := "DUPLICATE TRANSACTION (Rule 1): Same vendor, amount, and date occurs "
                    ++ toString count ++ " times"
                  severity := .HIGH }] }

/-- Rule 2 high outcome (amount > 1,000,000, HIGH, score 85). -/
def highValueHighOutcome (amount : ℚ) : RiskResult :=
  { level := .high
    score := 85
    why := "Rule 2 triggered: Amount > 1,000,000"
    factors := [{ type := "high_value_transaction"
                  description := "HIGH-VALUE TRANSACTION (Rule 2): Amount ₹" ++ toLocaleString amount
                    ++ " exceeds ₹1,000,000"
                  severity := .HIGH }] }

/-- Rule 2 medium outcome (500,000 ≤ amount ≤ 1,000,000, MEDIUM, score 60). -/
def highValueMediumOutcome (amount : ℚ) : RiskResult :=
  { level := .medium
    score := 60
    why := "Rule 2 triggered: Amount between 500,000 and 1,000,000"
    factors := [{ type := "high_value_transaction"
                  description := "HIGH-VALUE TRANSACTION (Rule 2): Amount ₹" ++ toLocaleString amount
                    ++ " is between ₹500,000 and ₹1,000,000"
                  severity := .MEDIUM }] }

/-- Rule 3 outcome (risky vendor country, MEDIUM, score 50). -/
def vendorCountryOutcome (c : String) : RiskResult :=
  { level := .medium
    score := 50
    why := "Rule 3 triggered: Vendor country is " ++ c
    factors := [{ type := "vendor_country_risk"
                  description := "VENDOR COUNTRY RISK (Rule 3): Vendor country is " ++ c
                  severity := .MEDIUM }] }

/-- Rule 4 outcome (same-vendor same-date frequency, MEDIUM, score 45). -/
def freqOutcome (n : Nat) : RiskResult :=
  { level := .medium
    score := 45
    why := "Rule 4 triggered: " ++ toString n ++ " payments to same vendor on same date"
    factors := [{ type := "frequency_risk"
                  description := "FREQUENCY RISK (Rule 4): " ++ toString n
                    ++ " payments to the same vendor on the same date"
                  severity := .MEDIUM }] }

/-- Default outcome: no rule triggered. -/
def lowOutcome : RiskResult :=
  { level := .low, score := 0, why := "No rule triggered", factors := [] }

/-- `analyzeTransaction`: the strictly ordered, first-match-wins rule chain.
Rule 1 duplicate, Rule 2 high-value (two bands), Rule 3 vendor country,
Rule 4 same-vendor same-date frequency (skipped for blank vendors), else low. -/
def analyzeTransaction (transaction : Transaction) (allTransactions : List Transaction)
    (duplicateGroups : List (String × List String)) : RiskResult :=
  if (isDuplicate transaction.id duplicateGroups).1 then
    dupOutcome (isDuplicate transaction.id duplicateGroups).2
  else if 1000000 < transaction.amount then
    highValueHighOutcome transaction.amount
  else if 500000 ≤ transaction.amount ∧ transaction.amount ≤ 1000000 then
    highValueMediumOutcome transaction.amount
  else if normCountry transaction.vendor_country ≠ "" ∧
      normCountry transaction.vendor_country ∈ MEDIUM_RISK_COUNTRIES then
    vendorCountryOutcome (normCountry transaction.vendor_country)
  else if txVendorKey transaction ≠ "" ∧ 1 < freqCount transaction allTransactions then
    freqOutcome (freqCount transaction allTransactions)
  else lowOutcome

/-- Rules 3 through 5 of the chain (what evaluation falls through to when
neither the duplicate rule nor the high-value rule fires). -/
def lowerRules (transaction : Transaction) (allTransactions : List Transaction) : RiskResult :=
  if normCountry transaction.vendor_country ≠ "" ∧
      normCountry transaction.vendor_country ∈ MEDIUM_RISK_COUNTRIES then
    vendorCountryOutcome (normCountry transaction.vendor_country)
  else if txVendorKey transaction ≠ "" ∧ 1 < freqCount transaction allTransactions then
    freqOutcome (freqCount transaction allTransactions)
  else lowOutcome

/-- Order-insensitive specification of `isDuplicate` over the raw batch: find
the (unique, when ids are distinct) transaction carrying the id; it is a
duplicate iff its key group has more than one member. -/
def dupSpec (id : String) (txs : List Transaction) : Bool × Nat :=
  match txs.find? (fun t => t.id == id) with
  | none => (false, 0)
  | some t =>
    match txKeyOpt t with
    | none => (false, 0)
    | some k =>
      if 1 < (txs.filter (fun u => txKeyOpt u == some k)).length then
        (true, (txs.filter (fun u => txKeyOpt u == some k)).length)
      else (false, 0)

/-- Size of the key group of a transaction inside a batch. -/
def dupGroupSize (tx : Transaction) (txs : List Transaction) : Nat :=
  (txs.filter (fun u => txKeyOpt u == txKeyOpt tx)).length

/-- A per-caller rate-limit window: request count and window reset time
(milliseconds since epoch). -/
structure RateLimitEntry where
  count : Nat
  resetTime : Int
deriving DecidableEq

/-- The in-memory rate-limit store (a JavaScript `Map`, insertion-ordered). -/
abbrev RateLimitStore := List (String × RateLimitEntry)

/-- `Map.get`. -/
def getStore : RateLimitStore → String → Option RateLimitEntry
  | [], _ => none
  | (k, v) :: rest, u => if k = u then some v else getStore rest u

/-- `Map.set` (update in place, insert at the end when absent). -/
def setStore : RateLimitStore → String → RateLimitEntry → RateLimitStore
  | [], u, e => [(u, e)]
  | (k, v) :: rest, u, e =>
    if k = u then (k, e) :: rest else (k, v) :: setStore rest u e

/-- `Math.ceil((resetTime - now) / 1000)`: seconds remaining, rounded up. -/
def retrySeconds (resetTime now : Int) : Int := ⌈((resetTime - now : Int) : ℚ) / 1000⌉

/-- `checkRateLimit`, parameterised by the endpoint's ceiling and window.
Returns `(allowed, retryAfter?)` and the updated store (the source mutates the
shared map; we thread the state explicitly). -/
def checkRateLimit (maxRequests : Nat) (windowMs : Int) (store : RateLimitStore)
    (userId : String) (now : Int) : (Bool × Option Int) × RateLimitStore :=
  match getStore store userId with
  | none => ((true, none), setStore store userId ⟨1, now + windowMs⟩)
  | some userLimit =>
    if userLimit.resetTime ≤ now then
      ((true, none), setStore store userId ⟨1, now + windowMs⟩)
    else if maxRequests ≤ userLimit.count then
      ((false, some (retrySeconds userLimit.resetTime now)), store)
    else
      ((true, none), setStore store userId ⟨userLimit.count + 1, userLimit.resetTime⟩)

/-- `RATE_LIMIT_WINDOW_MS` of the analysis endpoint: one hour. -/
def RATE_LIMIT_WINDOW_MS : Int := 60 * 60 * 1000

/-- `MAX_REQUESTS_PER_WINDOW` of the analysis endpoint. -/
def MAX_REQUESTS_PER_WINDOW : Nat := 10

/-- `RATE_LIMIT_WINDOW_MS` of the report endpoint: 24 hours. -/
def REPORT_RATE_LIMIT_WINDOW_MS : Int := 24 * 60 * 60 * 1000

/-- `MAX_REPORTS_PER_WINDOW` of the report endpoint. -/
def MAX_REPORTS_PER_WINDOW : Nat := 20

/-- The analysis endpoint's rate limiter instance. -/
def checkRateLimitAnalysis : RateLimitStore → String → Int → (Bool × Option Int) × RateLimitStore :=
  checkRateLimit MAX_REQUESTS_PER_WINDOW RATE_LIMIT_WINDOW_MS

/-- The report endpoint's rate limiter instance. -/
def checkRateLimitReport : RateLimitStore → String → Int → (Bool × Option Int) × RateLimitStore :=
  checkRateLimit MAX_REPORTS_PER_WINDOW REPORT_RATE_LIMIT_WINDOW_MS

/-- Run a sequence of same-caller requests at the given times, threading the
store, collecting each request's `(allowed, retryAfter?)` verdict. -/
def processTimes (maxRequests : Nat) (windowMs : Int) (u : String) (store : RateLimitStore) :
    List Int → List (Bool × Option Int) × RateLimitStore
  | [] => ([], store)
  | t :: ts =>
    (fun r rest => (r.1 :: rest.1, rest.2))
      (checkRateLimit maxRequests windowMs store u t)
      (processTimes maxRequests windowMs u (checkRateLimit maxRequests windowMs store u t).2 ts)

/-- A per-transaction assessment record as produced by the analyze handler
(STEP 2 of `serve`): the deterministic fields plus the two advisory fields
filled in later by the AI merge. -/
structure Assessment where
  transaction_id : String
  risk_score : Nat
  risk_level : RiskLevel
  risk_factors : List RiskFactor
  risk_reason : String
  triggered_rules : String
  audit_observation : Option String
  suggested_action : Option String
deriving DecidableEq

/-- The `triggered_rules` summary: factor types joined with ", ", with the
empty join replaced by "None". -/
def triggeredRules (factors : List RiskFactor) : String :=
  if joinSep ", " (factors.map (fun f => f.type)) = "" then "None"
  else joinSep ", " (factors.map (fun f => f.type))

/-- Assessment record built from one rule-chain result. -/
def mkAssessment (tx : Transaction) (r : RiskResult) : Assessment :=
  { transaction_id := tx.id
    risk_score := r.score
    risk_level := r.level
    risk_factors := r.factors
    risk_reason := r.why
    triggered_rules := triggeredRules r.factors
    audit_observation := none
    suggested_action := none }

/-- STEP 1 + STEP 2 of the analyze handler: build duplicate groups over the
whole batch, then map the rule chain over every transaction. -/
def assessBatch (transactions : List Transaction) : List Assessment :=
  transactions.map (fun tx =>
    mkAssessment tx (analyzeTransaction tx transactions (buildDuplicateGroups transactions)))

/-- One parsed entry of the AI narrative response.  The AI also returns a
`risk_reason` field; the merge step deliberately ignores it. -/
structure AIExplanation where
  transaction_id : String
  audit_observation : String
  risk_reason : String
  suggested_action : String
deriving DecidableEq

/-- `Object.assign` step for one parsed entry: the first assessment whose id
matches receives the two advisory fields, nothing else changes. -/
def applyExplanation : List Assessment → AIExplanation → List Assessment
  | [], _ => []
  | a :: rest, e =>
    if a.transaction_id = e.transaction_id then
      { a with audit_observation := some e.audit_observation
               suggested_action := some e.suggested_action } :: rest
    else a :: applyExplanation rest e

/-- The merge loop over all parsed AI entries. -/
def mergeExplanations (assessments : List Assessment) (es : List AIExplanation) : List Assessment :=
  es.foldl applyExplanation assessments

/-- Outcome of the single outbound AI call, abstracting the `fetch`:
a non-success HTTP status, a success with no/unparsable content, or a
successfully parsed entry list. -/
inductive AIOutcome where
  | httpError (status : Nat)
  | noContent
  | unparsable
  | parsed (es : List AIExplanation)
deriving DecidableEq

/-- An HTTP-level response of the analyze entry point (status, optional error
message, and the assessments included in the body). -/
structure AnalyzeResponse where
  status : Nat
  error : Option String
  assessments : List Assessment
deriving DecidableEq

/-- The analyze handler's response as a function of the AI-call outcome
(lines 373–430 of the source): 429/402 are surfaced with the assessments
attached; any other failure returns the plain assessments; a parsed response
is merged onto the assessments. -/
def analyzeRespond (assessments : List Assessment) (o : AIOutcome) : AnalyzeResponse :=
  match o with
  | .httpError s =>
    if s = 429 then ⟨429, some "Rate limit exceeded. Please try again in a moment.", assessments⟩
    else if s = 402 then ⟨402, some "AI credits exhausted. Please add credits to continue.", assessments⟩
    else ⟨200, none, assessments⟩
  | .noContent => ⟨200, none, assessments⟩
  | .unparsable => ⟨200, none, assessments⟩
  | .parsed es => ⟨200, none, mergeExplanations assessments es⟩

/-- The deterministic fields of an assessment (everything except the two
advisory fields). -/
def detFields (a : Assessment) : String × Nat × RiskLevel × List RiskFactor × String × String :=
  (a.transaction_id, a.risk_score, a.risk_level, a.risk_factors, a.risk_reason, a.triggered_rules)

/-- A session row (id and owner), as stored in `analysis_sessions`. -/
structure SessionRow where
  id : String
  user_id : String
deriving DecidableEq

/-- The ownership-checked session lookup:
`.eq("id", sessionId).eq("user_id", userId).single()`. -/
def findSession (sessions : List SessionRow) (sessionId userId : String) : Option SessionRow :=
  sessions.find? (fun s => s.id == sessionId && s.user_id == userId)

/-- The report handler's `userSafeErrors` whitelist. -/
def reportUserSafeErrors : List String :=
  ["Session ID is required", "Session not found or access denied"]

/-- The report handler's catch-block sanitizer: a thrown message is surfaced
verbatim iff it contains one of the safe messages, otherwise replaced by the
generic failure text. -/
def reportSafeMessage (msg : String) : String :=
  if reportUserSafeErrors.any (fun m => strIncludes msg m) then msg
  else "Report generation failed. Please try again."

/-- An HTTP-level response of the report entry point, together with whether an
`audit_reports` row was inserted. -/
structure ReportResponse where
  status : Nat
  error : Option String
  persisted : Bool
deriving DecidableEq

/-- The report handler's behaviour as a function of the AI-call outcome
(lines 311–376 of the source): 429/402 returned directly; any other failure
throws and is sanitized to a 500; only a parsed response reaches the insert. -/
def reportRespond (o : AIOutcome) : ReportResponse :=
  match o with
  | .httpError s =>
    if s = 429 then ⟨429, some "Rate limit exceeded. Please try again in a moment.", false⟩
    else if s = 402 then ⟨402, some "AI credits exhausted. Please add credits to continue.", false⟩
    else ⟨500, some (reportSafeMessage "Failed to generate report"), false⟩
  | .noContent => ⟨500, some (reportSafeMessage "No content in AI response"), false⟩
  | .unparsable => ⟨500, some "Report generation failed. Please try again.", false⟩
  | .parsed _ => ⟨200, none, true⟩

/-- The thrown message when the session row is missing or owned by another
caller. -/
def sessionNotFoundMsg : String := "Session not found or access denied"

/-- The report entry point after authentication and rate limiting: session
lookup with ownership check, then the AI call and persistence. -/
def generateReport (sessions : List SessionRow) (sessionId userId : String)
    (o : AIOutcome) : ReportResponse :=
  match findSession sessions sessionId userId with
  | none => ⟨500, some (reportSafeMessage sessionNotFoundMsg), false⟩
  | some _ => reportRespond o

/-- First-match lookup in the insertion-ordered group map. -/
def lookupGroup : List (String × List String) → String → List String
  | [], _ => []
  | (k, ids) :: rest, key => if k = key then ids else lookupGroup rest key

/-- Keys of the group map, in insertion order. -/
def keysOf (gs : List (String × List String)) : List String := gs.map Prod.fst

/-- Concrete transactions used by the closed witness and counterexample
theorems below. -/
def wtA : Transaction :=
  ⟨"a1", "T1", "2024-03-01", 1500, "Acme Corp", "INDIA", "wire", "Ops", "d1"⟩

def wtB : Transaction :=
  ⟨"a2", "T2", "2024-03-01", 1500, " acme corp ", "INDIA", "card", "Ops", "d2"⟩

def wtHigh : Transaction :=
  ⟨"h1", "T3", "2024-03-02", 2000000, "BigCo", "US", "wire", "Ops", ""⟩

def wtBlank1 : Transaction :=
  ⟨"b1", "T4", "2024-03-03", 10, " ", "", "wire", "Ops", ""⟩

def wtBlank2 : Transaction :=
  ⟨"b2", "T5", "2024-03-03", 10, "", "", "wire", "Ops", ""⟩

def wtF1 : Transaction :=
  ⟨"f1", "T6", "2024-03-04", 100, "VendorX", "INDIA", "wire", "Ops", ""⟩

def wtF2 : Transaction :=
  ⟨"f2", "T7", "2024-03-04", 200, "VendorX", "INDIA", "wire", "Ops", ""⟩

def wtX1 : Transaction := ⟨"X", "T8", "D", 1, "A", "", "w", "O", ""⟩

def wtY : Transaction := ⟨"Y", "T9", "D", 1, "A", "", "w", "O", ""⟩

def wtX2 : Transaction := ⟨"X", "T10", "D", 2, "B", "", "w", "O", ""⟩

def wtZ : Transaction := ⟨"Z", "T11", "D", 2, "B", "", "w", "O", ""⟩

def wtW : Transaction := ⟨"W", "T12", "D", 2, "B", "", "w", "O", ""⟩

def wtBlankX : Transaction := ⟨"X", "T13", "D2", 10, " ", "", "w", "O", ""⟩

/-- Concrete session row for the report-path witnesses. -/
def wSession : SessionRow := ⟨"s1", "alice"⟩

/-- Concrete AI explanation entry for the merge witnesses. -/
def wExplanation : AIExplanation := ⟨"h1", "obs", "ai reason", "act"⟩

theorem lookupGroup_insertGroup (gs : List (String × List String)) (key id k : String) :
    lookupGroup (insertGroup gs key id) k =
      if k = key then lookupGroup gs k ++ [id] else lookupGroup gs k := by
  induction gs with
  | nil =>
    by_cases h : k = key
    · subst h; simp [insertGroup, lookupGroup]
    · simp [insertGroup, lookupGroup, h, Ne.symm h]
  | cons p rest ih =>
    obtain ⟨k0, ids0⟩ := p
    simp only [insertGroup]
    by_cases h0 : k0 = key
    · subst h0
      simp only [if_pos rfl]
      by_cases h : k = k0
      · subst h; simp [lookupGroup]
      · simp [lookupGroup, h, Ne.symm h]
    · rw [if_neg h0]
      by_cases h : k0 = k
      · subst h
        simp [lookupGroup, fun hh : k0 = key => h0 hh]
      · simp [lookupGroup, h, ih]

theorem keysOf_insertGroup (gs : List (String × List String)) (key id : String) :
    keysOf (insertGroup gs key id) =
      if key ∈ keysOf gs then keysOf gs else keysOf gs ++ [key] := by
  induction gs with
  | nil => simp [insertGroup, keysOf]
  | cons p rest ih =>
    obtain ⟨k0, ids0⟩ := p
    by_cases h0 : k0 = key
    · subst h0; simp [insertGroup, keysOf]
    · simp only [insertGroup, if_neg h0, keysOf, List.map_cons] at ih ⊢
      rw [ih]
      by_cases hmem : key ∈ List.map Prod.fst rest
      · simp [hmem]
      · simp [hmem, Ne.symm h0]

theorem keysOf_insertGroup_nodup (gs : List (String × List String)) (key id : String)
    (h : (keysOf gs).Nodup) : (keysOf (insertGroup gs key id)).Nodup := by
  rw [keysOf_insertGroup]
  by_cases hmem : key ∈ keysOf gs
  · simpa [hmem] using h
  · simp only [hmem, if_false]
    rw [List.nodup_append]
    exact ⟨h, List.nodup_singleton key, by simp [List.disjoint_singleton, hmem]⟩

theorem keysOf_foldl_nodup (txs : List Transaction) :
    ∀ gs : List (String × List String), (keysOf gs).Nodup →
      (keysOf (txs.foldl addTx gs)).Nodup := by
  induction txs with
  | nil => intro gs h; simpa using h
  | cons t ts ih =>
    intro gs h
    rw [List.foldl_cons]
    refine ih _ ?_
    cases htk : txKeyOpt t with
    | none => simpa [addTx, htk] using h
    | some key =>
      have h2 := keysOf_insertGroup_nodup gs key t.id h
      simpa [addTx, htk] using h2

theorem keysOf_build_nodup (txs : List Transaction) :
    (keysOf (buildDuplicateGroups txs)).Nodup :=
  keysOf_foldl_nodup txs [] (by simp [keysOf])

theorem lookupGroup_foldl (txs : List Transaction) :
    ∀ (gs : List (String × List String)) (k : String),
      lookupGroup (txs.foldl addTx gs) k =
        lookupGroup gs k ++ (txs.filter (fun t => txKeyOpt t == some k)).map (fun t => t.id) := by
  induction txs with
  | nil => intro gs k; simp
  | cons t ts ih =>
    intro gs k
    rw [List.foldl_cons, ih]
    cases htk : txKeyOpt t with
    | none =>
      simp [addTx, htk, List.filter_cons]
    | some key =>
      by_cases hk : key = k
      · subst hk
        simp [addTx, htk, List.filter_cons, lookupGroup_insertGroup]
      · simp [addTx, htk, List.filter_cons, lookupGroup_insertGroup, hk, Ne.symm hk]

theorem lookupGroup_build (txs : List Transaction) (k : String) :
    lookupGroup (buildDuplicateGroups txs) k =
      (txs.filter (fun t => txKeyOpt t == some k)).map (fun t => t.id) := by
  rw [buildDuplicateGroups, lookupGroup_foldl]
  simp [lookupGroup]

theorem mem_lookupGroup_build (txs : List Transaction) (k id : String) :
    id ∈ lookupGroup (buildDuplicateGroups txs) k ↔
      ∃ t ∈ txs, txKeyOpt t = some k ∧ t.id = id := by
  rw [lookupGroup_build]
  simp only [List.mem_map, List.mem_filter, beq_iff_eq]
  constructor
  · rintro ⟨t, ⟨ht, hk⟩, hid⟩
    exact ⟨t, ht, hk, hid⟩
  · rintro ⟨t, ht, hk, hid⟩
    exact ⟨t, ⟨ht, hk⟩, hid⟩

theorem lookupGroup_mem : ∀ (gs : List (String × List String)) (k : String),
    lookupGroup gs k ≠ [] → (k, lookupGroup gs k) ∈ gs := by
  intro gs
  induction gs with
  | nil => intro k h; simp [lookupGroup] at h
  | cons p rest ih =>
    obtain ⟨k0, ids0⟩ := p
    intro k h
    by_cases hk : k0 = k
    · subst hk
      simp only [lookupGroup, if_pos rfl] at h ⊢
      exact List.mem_cons_self _ _
    · simp only [lookupGroup, if_neg hk] at h ⊢
      exact List.mem_cons_of_mem _ (ih k h)

theorem lookupGroup_of_mem :
    ∀ gs : List (String × List String), (keysOf gs).Nodup →
      ∀ {k : String} {ids : List String}, (k, ids) ∈ gs → lookupGroup gs k = ids := by
  intro gs
  induction gs with
  | nil => intro _ k ids h; simp at h
  | cons p rest ih =>
    obtain ⟨k0, ids0⟩ := p
    intro hN k ids h
    have hN' : (k0 :: keysOf rest).Nodup := by simpa [keysOf] using hN
    rcases List.mem_cons.mp h with h1 | h2
    · have hk : k = k0 := congrArg Prod.fst h1
      have hids : ids = ids0 := congrArg Prod.snd h1
      subst hk
      simp [lookupGroup, hids]
    · have hk0 : k0 ≠ k := by
        intro hkk
        subst hkk
        exact (List.nodup_cons.mp hN').1 (List.mem_map.mpr ⟨(k0, ids), h2, rfl⟩)
      simp only [lookupGroup, if_neg hk0]
      exact ih (List.nodup_cons.mp hN').2 h2

theorem mem_groupEntry_build (txs : List Transaction) (k : String) (ids : List String)
    (h : (k, ids) ∈ buildDuplicateGroups txs) :
    ids = (txs.filter (fun t => txKeyOpt t == some k)).map (fun t => t.id) := by
  rw [← lookupGroup_build]
  exact (lookupGroup_of_mem _ (keysOf_build_nodup txs) h).symm

theorem isDuplicate_of_not_mem (id : String) :
    ∀ gs : List (String × List String), (∀ p ∈ gs, id ∉ p.2) →
      isDuplicate id gs = (false, 0) := by
  intro gs
  induction gs with
  | nil => intro _; rfl
  | cons p rest ih =>
    obtain ⟨k0, ids0⟩ := p
    intro h
    have hc : ¬(id ∈ ids0 ∧ 1 < ids0.length) :=
      fun hh => h (k0, ids0) (List.mem_cons_self _ _) hh.1
    simp only [isDuplicate]
    rw [if_neg hc]
    exact ih fun q hq => h q (List.mem_cons_of_mem _ hq)

theorem isDuplicate_of_unique (id : String) (G : List String) (hG : id ∈ G) :
    ∀ gs : List (String × List String),
      (∀ p ∈ gs, id ∈ p.2 → p.2 = G) → (∃ p ∈ gs, id ∈ p.2) →
      isDuplicate id gs = if 1 < G.length then (true, G.length) else (false, 0) := by
  intro gs
  induction gs with
  | nil => rintro _ ⟨p, hp, _⟩; simp at hp
  | cons p rest ih =>
    obtain ⟨k0, ids0⟩ := p
    intro hall hex
    by_cases hmem : id ∈ ids0
    · have hids : ids0 = G := hall (k0, ids0) (List.mem_cons_self _ _) hmem
      subst hids
      by_cases hlen : 1 < ids0.length
      · simp only [isDuplicate]
        rw [if_pos ⟨hmem, hlen⟩, if_pos hlen]
      · have hc : ¬(id ∈ ids0 ∧ 1 < ids0.length) := fun hh => hlen hh.2
        simp only [isDuplicate]
        rw [if_neg hc, if_neg hlen]
        by_cases hex2 : ∃ q ∈ rest, id ∈ q.2
        · have hrec := ih (fun q hq => hall q (List.mem_cons_of_mem _ hq)) hex2
          rw [hrec, if_neg hlen]
        · push_neg at hex2
          exact isDuplicate_of_not_mem id rest hex2
    · have hc : ¬(id ∈ ids0 ∧ 1 < ids0.length) := fun hh => hmem hh.1
      simp only [isDuplicate]
      rw [if_neg hc]
      refine ih (fun q hq => hall q (List.mem_cons_of_mem _ hq)) ?_
      obtain ⟨q, hq, hqid⟩ := hex
      rcases List.mem_cons.mp hq with h1 | h2
      · rw [h1] at hqid; exact absurd hqid hmem
      · exact ⟨q, h2, hqid⟩

theorem txid_inj {txs : List Transaction} (hN : (txs.map (fun t => t.id)).Nodup)
    {t u : Transaction} (ht : t ∈ txs) (hu : u ∈ txs) (h : t.id = u.id) : t = u :=
  List.inj_on_of_nodup_map hN ht hu h

theorem isDuplicate_build (txs : List Transaction) (id : String)
    (hN : (txs.map (fun t => t.id)).Nodup) :
    isDuplicate id (buildDuplicateGroups txs) = dupSpec id txs := by
  cases hfind : txs.find? (fun t => t.id == id) with
  | none =>
    have hnone : ∀ t ∈ txs, t.id ≠ id := by
      intro t ht
      have := List.find?_eq_none.mp hfind t ht
      simpa using this
    have hnomem : ∀ p ∈ buildDuplicateGroups txs, id ∉ p.2 := by
      rintro ⟨k, ids⟩ hp hid
      rw [mem_groupEntry_build txs k ids hp] at hid
      simp only [List.mem_map, List.mem_filter, beq_iff_eq] at hid
      obtain ⟨t, ⟨ht, _⟩, htid⟩ := hid
      exact hnone t ht htid
    rw [isDuplicate_of_not_mem id _ hnomem]
    simp [dupSpec, hfind]
  | some t0 =>
    have ht0 : t0 ∈ txs := List.mem_of_find?_eq_some hfind
    have hid0 : t0.id = id := by simpa using List.find?_some hfind
    cases hk : txKeyOpt t0 with
    | none =>
      have hnomem : ∀ p ∈ buildDuplicateGroups txs, id ∉ p.2 := by
        rintro ⟨k, ids⟩ hp hid
        rw [mem_groupEntry_build txs k ids hp] at hid
        simp only [List.mem_map, List.mem_filter, beq_iff_eq] at hid
        obtain ⟨t, ⟨ht, hkt⟩, htid⟩ := hid
        have : t = t0 := txid_inj hN ht ht0 (htid.trans hid0.symm)
        rw [this, hk] at hkt
        exact Option.noConfusion hkt
      rw [isDuplicate_of_not_mem id _ hnomem]
      simp [dupSpec, hfind, hk]
    | some k0 =>
      have hGmem : id ∈ (txs.filter (fun u => txKeyOpt u == some k0)).map (fun t => t.id) := by
        simp only [List.mem_map, List.mem_filter, beq_iff_eq]
        exact ⟨t0, ⟨ht0, hk⟩, hid0⟩
      have hall : ∀ p ∈ buildDuplicateGroups txs, id ∈ p.2 →
          p.2 = (txs.filter (fun u => txKeyOpt u == some k0)).map (fun t => t.id) := by
        rintro ⟨k, ids⟩ hp hid
        have hids := mem_groupEntry_build txs k ids hp
        rw [hids] at hid ⊢
        simp only [List.mem_map, List.mem_filter, beq_iff_eq] at hid
        obtain ⟨t, ⟨ht, hkt⟩, htid⟩ := hid
        have hteq : t = t0 := txid_inj hN ht ht0 (htid.trans hid0.symm)
        rw [hteq, hk] at hkt
        rw [Option.some_inj.mp hkt]
      have hex : ∃ p ∈ buildDuplicateGroups txs, id ∈ p.2 := by
        have hlk : lookupGroup (buildDuplicateGroups txs) k0 =
            (txs.filter (fun u => txKeyOpt u == some k0)).map (fun t => t.id) :=
          lookupGroup_build txs k0
        have hne : lookupGroup (buildDuplicateGroups txs) k0 ≠ [] := by
          rw [hlk]
          intro hempty
          rw [hempty] at hGmem
          exact List.not_mem_nil id hGmem
        refine ⟨(k0, lookupGroup (buildDuplicateGroups txs) k0), lookupGroup_mem _ k0 hne, ?_⟩
        rw [hlk]
        exact hGmem
      rw [isDuplicate_of_unique id _ hGmem _ hall hex]
      simp only [dupSpec, hfind, hk, List.length_map]

theorem dupSpec_perm (id : String) {txs txs' : List Transaction} (hp : txs.Perm txs')
    (hN : (txs.map (fun t => t.id)).Nodup) : dupSpec id txs = dupSpec id txs' := by
  cases hf : txs.find? (fun t => t.id == id) with
  | none =>
    have hf' : txs'.find? (fun t => t.id == id) = none :=
      List.find?_eq_none.mpr fun x hx => List.find?_eq_none.mp hf x (hp.mem_iff.mpr hx)
    simp [dupSpec, hf, hf']
  | some t0 =>
    have ht0 : t0 ∈ txs := List.mem_of_find?_eq_some hf
    have hid0 : t0.id = id := by simpa using List.find?_some hf
    have hsome : (txs'.find? (fun t => t.id == id)).isSome := by
      rw [List.find?_isSome]
      exact ⟨t0, hp.mem_iff.mp ht0, by simp [hid0]⟩
    obtain ⟨t1, hf'⟩ := Option.isSome_iff_exists.mp hsome
    have ht1 : t1 ∈ txs := hp.mem_iff.mpr (List.mem_of_find?_eq_some hf')
    have hid1 : t1.id = id := by simpa using List.find?_some hf'
    have hteq : t1 = t0 := txid_inj hN ht1 ht0 (by rw [hid1, hid0])
    subst hteq
    have hlen : ∀ k : String,
        (txs.filter (fun u => txKeyOpt u == some k)).length =
          (txs'.filter (fun u => txKeyOpt u == some k)).length :=
      fun k => (hp.filter _).length_eq
    simp only [dupSpec, hf, hf']
    cases txKeyOpt t1 with
    | none => rfl
    | some k0 => simp [hlen k0]

theorem freqCount_perm (tx : Transaction) {txs txs' : List Transaction} (hp : txs.Perm txs') :
    freqCount tx txs = freqCount tx txs' := by
  simpa [freqCount] using (hp.filter _).length_eq

theorem analyzeTransaction_congr (tx : Transaction) {txs txs' : List Transaction}
    (h1 : isDuplicate tx.id (buildDuplicateGroups txs) =
      isDuplicate tx.id (buildDuplicateGroups txs'))
    (h2 : freqCount tx txs = freqCount tx txs') :
    analyzeTransaction tx txs (buildDuplicateGroups txs) =
      analyzeTransaction tx txs' (buildDuplicateGroups txs') := by
  simp only [analyzeTransaction, h1, h2]

theorem checkRateLimit_fresh (maxR : Nat) (windowMs : Int) (u : String) (t : Int) :
    checkRateLimit maxR windowMs [] u t = ((true, none), [(u, ⟨1, t + windowMs⟩)]) := by
  simp [checkRateLimit, getStore, setStore]

theorem checkRateLimit_inWindow (maxR : Nat) (windowMs : Int) (u : String) (t : Int)
    (c : Nat) (R : Int) (ht : t < R) :
    checkRateLimit maxR windowMs [(u, ⟨c, R⟩)] u t =
      if c < maxR then ((true, none), [(u, ⟨c + 1, R⟩)])
      else ((false, some (retrySeconds R t)), [(u, ⟨c, R⟩)]) := by
  by_cases hcm : c < maxR
  · rw [if_pos hcm]
    simp [checkRateLimit, getStore, setStore, not_le.mpr ht, not_le.mpr hcm]
  · rw [if_neg hcm]
    simp [checkRateLimit, getStore, setStore, not_le.mpr ht, not_lt.mp hcm]

theorem checkRateLimit_expired (maxR : Nat) (windowMs : Int) (u : String) (t : Int)
    (c : Nat) (R : Int) (ht : R ≤ t) :
    checkRateLimit maxR windowMs [(u, ⟨c, R⟩)] u t =
      ((true, none), [(u, ⟨1, t + windowMs⟩)]) := by
  simp [checkRateLimit, getStore, setStore, ht]

theorem retrySeconds_pos (R t : Int) (ht : t < R) : 0 < retrySeconds R t := by
  rw [retrySeconds, Int.lt_iff_add_one_le]
  have h1 : (0 : ℚ) < ((R - t : Int) : ℚ) / 1000 := by
    apply div_pos
    · exact_mod_cast sub_pos.mpr ht
    · norm_num
  calc (0 : Int) + 1 = 1 := by ring
    _ ≤ ⌈((R - t : Int) : ℚ) / 1000⌉ := by
        rw [Int.le_ceil_iff]
        simpa using h1

theorem checkRateLimit_denied_pos (maxR : Nat) (windowMs : Int) (store : RateLimitStore)
    (u : String) (t : Int)
    (h : ((checkRateLimit maxR windowMs store u t).1).1 = false) :
    ∃ s, ((checkRateLimit maxR windowMs store u t).1).2 = some s ∧ 0 < s := by
  cases hG : getStore store u with
  | none => simp [checkRateLimit, hG] at h
  | some e =>
    simp only [checkRateLimit, hG] at h ⊢
    by_cases hexp : e.resetTime ≤ t
    · rw [if_pos hexp] at h; simp at h
    · rw [if_neg hexp] at h ⊢
      by_cases hden : maxR ≤ e.count
      · rw [if_pos hden]
        exact ⟨retrySeconds e.resetTime t, rfl, retrySeconds_pos _ _ (not_le.mp hexp)⟩
      · rw [if_neg hden] at h; simp at h

theorem processTimes_denied_pos (maxR : Nat) (windowMs : Int) (u : String) :
    ∀ (ts : List Int) (store : RateLimitStore),
      ∀ r ∈ (processTimes maxR windowMs u store ts).1, r.1 = false →
        ∃ s, r.2 = some s ∧ 0 < s := by
  intro ts
  induction ts with
  | nil => intro store r hr; simp [processTimes] at hr
  | cons t ts ih =>
    intro store r hr hfalse
    simp only [processTimes] at hr
    rcases List.mem_cons.mp hr with h1 | h2
    · subst h1
      exact checkRateLimit_denied_pos maxR windowMs store u t hfalse
    · exact ih _ r h2 hfalse

theorem processTimes_inWindow (maxR : Nat) (windowMs : Int) (u : String) (R : Int) :
    ∀ (ts : List Int) (c : Nat), c ≤ maxR → (∀ t ∈ ts, t < R) →
      processTimes maxR windowMs u [(u, ⟨c, R⟩)] ts =
        (ts.mapIdx (fun i t =>
          if c + i < maxR then ((true : Bool), (none : Option Int))
          else (false, some (retrySeconds R t))),
         [(u, ⟨min (c + ts.length) maxR, R⟩)]) := by
  intro ts
  induction ts with
  | nil =>
    intro c hc _
    simp [processTimes, Nat.min_eq_left hc]
  | cons t ts ih =>
    intro c hc hin
    have ht : t < R := hin t (List.mem_cons_self _ _)
    simp only [processTimes]
    rw [checkRateLimit_inWindow maxR windowMs u t c R ht]
    by_cases hcm : c < maxR
    · rw [if_pos hcm]
      simp only
      rw [ih (c + 1) (by omega) (fun x hx => hin x (List.mem_cons_of_mem _ hx))]
      simp only [List.mapIdx_cons]
      refine Prod.ext ?_ ?_
      · simp only
        rw [if_pos (by omega : c + 0 < maxR)]
        congr 1
        have hfun : (fun i t => if c + 1 + i < maxR then ((true : Bool), (none : Option Int))
            else (false, some (retrySeconds R t))) =
            (fun i t => if c + (i + 1) < maxR then ((true : Bool), (none : Option Int))
            else (false, some (retrySeconds R t))) := by
          funext i x
          rw [show c + 1 + i = c + (i + 1) by omega]
        rw [hfun]
      · simp only
        rw [show c + 1 + ts.length = c + (ts.length + 1) by omega]
        simp [List.length_cons]
    · rw [if_neg hcm]
      have hceq : c = maxR := le_antisymm hc (not_lt.mp hcm)
      simp only
      rw [ih c hc (fun x hx => hin x (List.mem_cons_of_mem _ hx))]
      simp only [List.mapIdx_cons]
      refine Prod.ext ?_ ?_
      · simp only
        rw [if_neg (by omega : ¬ c + 0 < maxR)]
        congr 1
        have hfun : (fun i t => if c + i < maxR then ((true : Bool), (none : Option Int))
            else (false, some (retrySeconds R t))) =
            (fun i t => if c + (i + 1) < maxR then ((true : Bool), (none : Option Int))
            else (false, some (retrySeconds R t))) := by
          funext i x
          rw [if_neg (by omega : ¬ c + i < maxR), if_neg (by omega : ¬ c + (i + 1) < maxR)]
        rw [hfun]
      · simp only
        subst hceq
        rw [Nat.min_eq_right (Nat.le_add_right _ _), Nat.min_eq_right (Nat.le_add_right _ _)]

theorem applyExplanation_detFields (as : List Assessment) (e : AIExplanation) :
    (applyExplanation as e).map detFields = as.map detFields := by
  induction as with
  | nil => rfl
  | cons a rest ih =>
    by_cases h : a.transaction_id = e.transaction_id
    · simp [applyExplanation, h, detFields]
    · simp [applyExplanation, h, detFields, ih]

theorem mergeExplanations_detFields (es : List AIExplanation) :
    ∀ as : List Assessment, (mergeExplanations as es).map detFields = as.map detFields := by
  induction es with
  | nil => intro as; rfl
  | cons e es ih =>
    intro as
    rw [mergeExplanations, List.foldl_cons]
    have h1 := ih (applyExplanation as e)
    rw [mergeExplanations] at h1
    rw [h1, applyExplanation_detFields]

theorem applyExplanation_matched (e : AIExplanation) :
    ∀ as : List Assessment, (∃ a ∈ as, a.transaction_id = e.transaction_id) →
      ∃ a' ∈ applyExplanation as e,
        a'.transaction_id = e.transaction_id ∧
        a'.audit_observation = some e.audit_observation ∧
        a'.suggested_action = some e.suggested_action := by
  intro as
  induction as with
  | nil => rintro ⟨a, ha, _⟩; simp at ha
  | cons a rest ih =>
    rintro ⟨b, hb, hbid⟩
    by_cases h : a.transaction_id = e.transaction_id
    · refine ⟨{ a with audit_observation := some e.audit_observation
                       suggested_action := some e.suggested_action }, ?_, h, rfl, rfl⟩
      simp [applyExplanation, h]
    · rcases List.mem_cons.mp hb with h1 | h2
      · rw [← h1] at h; exact absurd hbid h
      · obtain ⟨a', ha', hprops⟩ := ih ⟨b, h2, hbid⟩
        exact ⟨a', by simp [applyExplanation, h, ha'], hprops⟩

theorem analyzeRespond_assessments_of_fail (as : List Assessment) (o : AIOutcome)
    (h : ∀ es, o ≠ .parsed es) : (analyzeRespond as o).assessments = as := by
  cases o with
  | httpError s =>
    by_cases h429 : s = 429
    · simp [analyzeRespond, h429]
    · by_cases h402 : s = 402
      · simp [analyzeRespond, h429, h402]
      · simp [analyzeRespond, h429, h402]
  | noContent => rfl
  | unparsable => rfl
  | parsed es => exact absurd rfl (h es)

theorem analyzeTransaction_fallthrough (tx : Transaction) (txs : List Transaction)
    (G : List (String × List String)) (hd : (isDuplicate tx.id G).1 = false)
    (hlt : tx.amount < 500000) : analyzeTransaction tx txs G = lowerRules tx txs := by
  have h1 : ¬ ((1000000 : ℚ) < tx.amount) := by
    intro hh
    have : (500000 : ℚ) < 1000000 := by norm_num
    linarith
  have h2 : ¬ ((500000 : ℚ) ≤ tx.amount ∧ tx.amount ≤ 1000000) :=
    fun hh => absurd hh.1 (not_le.mpr hlt)
  simp only [analyzeTransaction, lowerRules, hd]
  rw [if_neg (by simp), if_neg h1, if_neg h2]

theorem two_le_length_of_mem {α : Type} {l : List α} {a b : α}
    (ha : a ∈ l) (hb : b ∈ l) (hne : a ≠ b) : 2 ≤ l.length := by
  obtain ⟨s, t, rfl⟩ := List.append_of_mem ha
  rcases List.mem_append.mp hb with hs | hat
  · have := List.length_pos_of_mem hs
    simp [List.length_append]
    omega
  · rcases List.mem_cons.mp hat with h1 | h2
    · exact absurd h1.symm hne
    · have := List.length_pos_of_mem h2
      simp [List.length_append]
      omega

/-- Claim C1 counterexample: in a batch where two transactions share the id
"X" in different key groups (sizes 2 and 3), the group scan returns the first
group containing the id, so the count stated in the reason (3) differs from
the size of the transaction's own duplicate group (2): the claim fails for
batches with repeated ids. -/
theorem claim1_counterexample :
    (wtX1 ∈ ([wtX2, wtZ, wtW, wtX1, wtY] : List Transaction) ∧
      wtY ∈ ([wtX2, wtZ, wtW, wtX1, wtY] : List Transaction) ∧
      wtY ≠ wtX1 ∧ txVendorKey wtX1 ≠ "" ∧
      txVendorKey wtY = txVendorKey wtX1 ∧
      wtY.transaction_date = wtX1.transaction_date ∧
      txCents wtY = txCents wtX1) ∧
    dupGroupSize wtX1 [wtX2, wtZ, wtW, wtX1, wtY] = 2 ∧
    analyzeTransaction wtX1 [wtX2, wtZ, wtW, wtX1, wtY]
        (buildDuplicateGroups [wtX2, wtZ, wtW, wtX1, wtY]) ≠
      dupOutcome (dupGroupSize wtX1 [wtX2, wtZ, wtW, wtX1, wtY]) := by
  with_unfolding_all decide

/-- Claim C1 (amended with pairwise-distinct batch ids): a transaction whose
non-blank normalized vendor name, date and cents amount are shared with at
least one other transaction of the batch is classified HIGH with score 90 via the single duplicate
factor, and the occurrence count in the reason equals the size of its
duplicate group — with no hypothesis on amount or vendor country, since the
duplicate rule runs first and first-match-wins stops the chain. -/
theorem claim1_duplicate_rule (txs : List Transaction) (tx t' : Transaction)
    (hN : (txs.map (fun t => t.id)).Nodup)
    (htx : tx ∈ txs) (ht' : t' ∈ txs) (hne : t' ≠ tx)
    (hvendor : txVendorKey tx ≠ "")
    (hv : txVendorKey t' = txVendorKey tx)
    (hdate : t'.transaction_date = tx.transaction_date)
    (hcents : txCents t' = txCents tx) :
    analyzeTransaction tx txs (buildDuplicateGroups txs) = dupOutcome (dupGroupSize tx txs) ∧
      2 ≤ dupGroupSize tx txs := by
  have hkey : txKeyOpt tx = some (txKey tx) := by rw [txKeyOpt, if_neg hvendor]
  have hkey' : txKeyOpt t' = txKeyOpt tx := by
    simp only [txKeyOpt, txKey, hv, hdate, hcents]
  have hmemA : tx ∈ txs.filter (fun u => txKeyOpt u == txKeyOpt tx) :=
    List.mem_filter.mpr ⟨htx, by simp⟩
  have hmemB : t' ∈ txs.filter (fun u => txKeyOpt u == txKeyOpt tx) :=
    List.mem_filter.mpr ⟨ht', by simp [hkey']⟩
  have hsize : 2 ≤ dupGroupSize tx txs := by
    rw [dupGroupSize]
    exact two_le_length_of_mem hmemA hmemB (Ne.symm hne)
  refine ⟨?_, hsize⟩
  have hdup : isDuplicate tx.id (buildDuplicateGroups txs) = (true, dupGroupSize tx txs) := by
    rw [isDuplicate_build txs tx.id hN]
    cases hf : txs.find? (fun t => t.id == tx.id) with
    | none =>
      exfalso
      have := List.find?_eq_none.mp hf tx htx
      simp at this
    | some t0 =>
      have ht0 : t0 ∈ txs := List.mem_of_find?_eq_some hf
      have hid0 : t0.id = tx.id := by simpa using List.find?_some hf
      have hteq : t0 = tx := txid_inj hN ht0 htx hid0
      rw [hteq] at hf
      simp only [dupSpec, hf, hkey]
      rw [if_pos]
      · rw [dupGroupSize, hkey]
      · rw [← hkey]
        have : 2 ≤ (txs.filter (fun u => txKeyOpt u == txKeyOpt tx)).length := by
          rw [dupGroupSize] at hsize
          exact hsize
        omega
  simp [analyzeTransaction, hdup]

theorem claim1_duplicate_rule_witness :
    ((([wtA, wtB] : List Transaction).map (fun t => t.id)).Nodup ∧
      wtA ∈ [wtA, wtB] ∧ wtB ∈ [wtA, wtB] ∧ wtB ≠ wtA ∧
      txVendorKey wtA ≠ "" ∧ txVendorKey wtB = txVendorKey wtA ∧
      wtB.transaction_date = wtA.transaction_date ∧ txCents wtB = txCents wtA) ∧
    (analyzeTransaction wtA [wtA, wtB] (buildDuplicateGroups [wtA, wtB]) =
        dupOutcome (dupGroupSize wtA [wtA, wtB]) ∧
      2 ≤ dupGroupSize wtA [wtA, wtB]) :=
  ⟨by with_unfolding_all decide,
    claim1_duplicate_rule [wtA, wtB] wtA wtB
      (by with_unfolding_all decide) (by with_unfolding_all decide)
      (by with_unfolding_all decide) (by with_unfolding_all decide)
      (by with_unfolding_all decide) (by with_unfolding_all decide)
      (by with_unfolding_all decide) (by with_unfolding_all decide)⟩

/-- Claim C2: for a transaction not in any duplicate group, amount strictly
above 1,000,000 gives HIGH with score 85; amount between 500,000 and 1,000,000
with both bounds inclusive gives MEDIUM with score 60; amount strictly below
500,000 leaves the high-value rule untriggered and evaluation falls through to
the lower-priority vendor-country and frequency rules. -/
theorem claim2_high_value_bands (tx : Transaction) (txs : List Transaction)
    (hd : (isDuplicate tx.id (buildDuplicateGroups txs)).1 = false) :
    ((1000000 : ℚ) < tx.amount →
      analyzeTransaction tx txs (buildDuplicateGroups txs) = highValueHighOutcome tx.amount) ∧
    ((500000 : ℚ) ≤ tx.amount ∧ tx.amount ≤ 1000000 →
      analyzeTransaction tx txs (buildDuplicateGroups txs) = highValueMediumOutcome tx.amount) ∧
    (tx.amount < 500000 →
      analyzeTransaction tx txs (buildDuplicateGroups txs) = lowerRules tx txs) := by
  refine ⟨?_, ?_, ?_⟩
  · intro h
    simp only [analyzeTransaction, hd]
    rw [if_neg (by simp), if_pos h]
  · intro h
    have hnlt : ¬ ((1000000 : ℚ) < tx.amount) := not_lt.mpr h.2
    simp only [analyzeTransaction, hd]
    rw [if_neg (by simp), if_neg hnlt, if_pos h]
  · intro h
    exact analyzeTransaction_fallthrough tx txs _ hd h

theorem claim2_high_value_bands_witness :
    ((isDuplicate wtHigh.id (buildDuplicateGroups [wtHigh])).1 = false) ∧
    (((1000000 : ℚ) < wtHigh.amount →
      analyzeTransaction wtHigh [wtHigh] (buildDuplicateGroups [wtHigh]) =
        highValueHighOutcome wtHigh.amount) ∧
    ((500000 : ℚ) ≤ wtHigh.amount ∧ wtHigh.amount ≤ 1000000 →
      analyzeTransaction wtHigh [wtHigh] (buildDuplicateGroups [wtHigh]) =
        highValueMediumOutcome wtHigh.amount) ∧
    (wtHigh.amount < 500000 →
      analyzeTransaction wtHigh [wtHigh] (buildDuplicateGroups [wtHigh]) =
        lowerRules wtHigh [wtHigh])) :=
  ⟨by with_unfolding_all decide,
    claim2_high_value_bands wtHigh [wtHigh] (by with_unfolding_all decide)⟩

/-- Claim C3 counterexample: two whitespace-vendor transactions share their
normalized (empty) vendor name and date, no earlier rule fires, the
same-vendor same-date count is 2 — yet the transaction is classified low, not
MEDIUM 45, because the source skips the frequency rule entirely for blank
vendor names. -/
theorem claim3_counterexample :
    (isDuplicate wtBlank1.id (buildDuplicateGroups [wtBlank1, wtBlank2])).1 = false ∧
    wtBlank1.amount < 500000 ∧
    normCountry wtBlank1.vendor_country ∉ MEDIUM_RISK_COUNTRIES ∧
    txVendorKey wtBlank2 = txVendorKey wtBlank1 ∧
    wtBlank2.transaction_date = wtBlank1.transaction_date ∧
    1 < freqCount wtBlank1 [wtBlank1, wtBlank2] ∧
    analyzeTransaction wtBlank1 [wtBlank1, wtBlank2]
        (buildDuplicateGroups [wtBlank1, wtBlank2]) = lowOutcome ∧
    lowOutcome ≠ freqOutcome (freqCount wtBlank1 [wtBlank1, wtBlank2]) := by
  with_unfolding_all decide

/-- Claim C3 (amended): for a transaction with a non-blank normalized vendor
name for which neither the duplicate, high-value, nor vendor-country rule
fires, a same-vendor same-date count above 1 yields MEDIUM with score 45 via
the single frequency factor, the count in the reason being that same count. -/
theorem claim3_frequency_rule (tx : Transaction) (txs : List Transaction)
    (hd : (isDuplicate tx.id (buildDuplicateGroups txs)).1 = false)
    (hamt : tx.amount < 500000)
    (hcountry : normCountry tx.vendor_country ∉ MEDIUM_RISK_COUNTRIES)
    (hvendor : txVendorKey tx ≠ "")
    (hfreq : 1 < freqCount tx txs) :
    analyzeTransaction tx txs (buildDuplicateGroups txs) =
      freqOutcome (freqCount tx txs) := by
  rw [analyzeTransaction_fallthrough tx txs _ hd hamt, lowerRules]
  rw [if_neg (fun hh => hcountry hh.2), if_pos ⟨hvendor, hfreq⟩]

theorem claim3_frequency_rule_witness :
    ((isDuplicate wtF1.id (buildDuplicateGroups [wtF1, wtF2])).1 = false ∧
      wtF1.amount < 500000 ∧
      normCountry wtF1.vendor_country ∉ MEDIUM_RISK_COUNTRIES ∧
      txVendorKey wtF1 ≠ "" ∧
      1 < freqCount wtF1 [wtF1, wtF2]) ∧
    analyzeTransaction wtF1 [wtF1, wtF2] (buildDuplicateGroups [wtF1, wtF2]) =
      freqOutcome (freqCount wtF1 [wtF1, wtF2]) :=
  ⟨by with_unfolding_all decide,
    claim3_frequency_rule wtF1 [wtF1, wtF2]
      (by with_unfolding_all decide) (by with_unfolding_all decide)
      (by with_unfolding_all decide) (by with_unfolding_all decide)
      (by with_unfolding_all decide)⟩

/-- Claim C4: every rule-chain result is exactly one outcome: the tier is low
iff the factor list is empty, a low result has score 0, and every non-low
result carries exactly one risk factor. -/
theorem claim4_single_outcome (tx : Transaction) (txs : List Transaction) :
    ((analyzeTransaction tx txs (buildDuplicateGroups txs)).level = RiskLevel.low ↔
      (analyzeTransaction tx txs (buildDuplicateGroups txs)).factors = []) ∧
    ((analyzeTransaction tx txs (buildDuplicateGroups txs)).level = RiskLevel.low →
      (analyzeTransaction tx txs (buildDuplicateGroups txs)).score = 0) ∧
    ((analyzeTransaction tx txs (buildDuplicateGroups txs)).level ≠ RiskLevel.low →
      (analyzeTransaction tx txs (buildDuplicateGroups txs)).factors.length = 1) := by
  rw [analyzeTransaction]
  split_ifs <;>
    simp [dupOutcome, highValueHighOutcome, highValueMediumOutcome,
      vendorCountryOutcome, freqOutcome, lowOutcome]

theorem claim4_single_outcome_witness :
    ((analyzeTransaction wtHigh [wtHigh] (buildDuplicateGroups [wtHigh])).level =
        RiskLevel.low ↔
      (analyzeTransaction wtHigh [wtHigh] (buildDuplicateGroups [wtHigh])).factors = []) ∧
    ((analyzeTransaction wtHigh [wtHigh] (buildDuplicateGroups [wtHigh])).level =
        RiskLevel.low →
      (analyzeTransaction wtHigh [wtHigh] (buildDuplicateGroups [wtHigh])).score = 0) ∧
    ((analyzeTransaction wtHigh [wtHigh] (buildDuplicateGroups [wtHigh])).level ≠
        RiskLevel.low →
      (analyzeTransaction wtHigh [wtHigh] (buildDuplicateGroups [wtHigh])).factors.length = 1) :=
  claim4_single_outcome wtHigh [wtHigh]

/-- Claim C5 counterexample: a batch in which two transactions share the id
"X" (with different vendor/amount keys whose groups have sizes 2 and 3).
Reordering the batch reorders the group map, `isDuplicate` picks a different
first matching group, and the assessment of the same transaction differs
(reason "2 occurrences" versus "3 occurrences"), so assessments are not
invariant under permutation for every batch. -/
theorem claim5_counterexample :
    ([wtX1, wtY, wtX2, wtZ, wtW] : List Transaction).Perm [wtX2, wtZ, wtW, wtX1, wtY] ∧
    analyzeTransaction wtX1 [wtX1, wtY, wtX2, wtZ, wtW]
        (buildDuplicateGroups [wtX1, wtY, wtX2, wtZ, wtW]) ≠
      analyzeTransaction wtX1 [wtX2, wtZ, wtW, wtX1, wtY]
        (buildDuplicateGroups [wtX2, wtZ, wtW, wtX1, wtY]) := by
  with_unfolding_all decide

/-- Claim C5 (amended): when the batch's transaction ids are pairwise
distinct, every transaction's assessment — level, score, factors and reason —
is invariant under any permutation of the batch consumed by the evaluator. -/
theorem claim5_permutation_invariance (tx : Transaction) (txs txs' : List Transaction)
    (hp : txs.Perm txs') (hN : (txs.map (fun t => t.id)).Nodup) :
    analyzeTransaction tx txs (buildDuplicateGroups txs) =
      analyzeTransaction tx txs' (buildDuplicateGroups txs') := by
  have hN' : (txs'.map (fun t => t.id)).Nodup := (hp.map _).nodup_iff.mp hN
  apply analyzeTransaction_congr
  · rw [isDuplicate_build txs tx.id hN, isDuplicate_build txs' tx.id hN']
    exact dupSpec_perm tx.id hp hN
  · exact freqCount_perm tx hp

theorem claim5_permutation_invariance_witness :
    (([wtA, wtB] : List Transaction).Perm [wtB, wtA] ∧
      (([wtA, wtB] : List Transaction).map (fun t => t.id)).Nodup) ∧
    analyzeTransaction wtA [wtA, wtB] (buildDuplicateGroups [wtA, wtB]) =
      analyzeTransaction wtA [wtB, wtA] (buildDuplicateGroups [wtB, wtA]) :=
  ⟨by with_unfolding_all decide,
    claim5_permutation_invariance wtA [wtA, wtB] [wtB, wtA]
      (by with_unfolding_all decide) (by with_unfolding_all decide)⟩

/-- Claim C10 counterexample: a whitespace-vendor transaction that happens to
share its id string "X" with a member of another pair's duplicate group is
classified HIGH by the duplicate rule — not LOW — although neither the
high-value nor the vendor-country rule fires: the claim fails for batches
with repeated ids. -/
theorem claim10_counterexample :
    (txVendorKey wtBlankX = "" ∧
      ¬ ((1000000 : ℚ) < wtBlankX.amount) ∧
      ¬ ((500000 : ℚ) ≤ wtBlankX.amount ∧ wtBlankX.amount ≤ 1000000) ∧
      normCountry wtBlankX.vendor_country ∉ MEDIUM_RISK_COUNTRIES) ∧
    analyzeTransaction wtBlankX [wtBlankX, wtX1, wtY]
        (buildDuplicateGroups [wtBlankX, wtX1, wtY]) ≠ lowOutcome := by
  with_unfolding_all decide

/-- Claim C10 (amended with pairwise-distinct batch ids): a transaction whose
vendor name is empty or whitespace-only (normalized vendor key empty) never
receives a
frequency factor, and with the high-value and vendor-country rules not firing
it is classified by the low outcome — score 0, empty factors — even when
other blank-vendor transactions in the batch share its date. -/
theorem claim10_blank_vendor (tx : Transaction) (txs : List Transaction)
    (htx : tx ∈ txs) (hN : (txs.map (fun t => t.id)).Nodup)
    (hblank : txVendorKey tx = "") :
    (∀ f ∈ (analyzeTransaction tx txs (buildDuplicateGroups txs)).factors,
      f.type ≠ "frequency_risk") ∧
    (¬ ((1000000 : ℚ) < tx.amount) →
      ¬ ((500000 : ℚ) ≤ tx.amount ∧ tx.amount ≤ 1000000) →
      normCountry tx.vendor_country ∉ MEDIUM_RISK_COUNTRIES →
      analyzeTransaction tx txs (buildDuplicateGroups txs) = lowOutcome) := by
  have hdup : isDuplicate tx.id (buildDuplicateGroups txs) = (false, 0) := by
    rw [isDuplicate_build txs tx.id hN]
    cases hf : txs.find? (fun t => t.id == tx.id) with
    | none => simp [dupSpec, hf]
    | some t0 =>
      have ht0 : t0 ∈ txs := List.mem_of_find?_eq_some hf
      have hid0 : t0.id = tx.id := by simpa using List.find?_some hf
      have hteq : t0 = tx := txid_inj hN ht0 htx hid0
      rw [hteq] at hf
      have hk : txKeyOpt tx = none := by rw [txKeyOpt, if_pos hblank]
      simp [dupSpec, hf, hk]
  have hcond : ¬ (txVendorKey tx ≠ "" ∧ 1 < freqCount tx txs) := fun hh => hh.1 hblank
  have hres : analyzeTransaction tx txs (buildDuplicateGroups txs) =
      (if (1000000 : ℚ) < tx.amount then highValueHighOutcome tx.amount
       else if (500000 : ℚ) ≤ tx.amount ∧ tx.amount ≤ 1000000 then
         highValueMediumOutcome tx.amount
       else if normCountry tx.vendor_country ≠ "" ∧
           normCountry tx.vendor_country ∈ MEDIUM_RISK_COUNTRIES then
         vendorCountryOutcome (normCountry tx.vendor_country)
       else lowOutcome) := by
    simp only [analyzeTransaction, hdup]
    rw [if_neg (by simp), if_neg hcond]
  constructor
  · intro f hf2
    rw [hres] at hf2
    split_ifs at hf2 <;>
      simp [highValueHighOutcome, highValueMediumOutcome, vendorCountryOutcome,
        lowOutcome] at hf2 <;>
      simp [hf2]
  · intro h1 h2 h3
    rw [hres, if_neg h1, if_neg h2, if_neg (fun hh => h3 hh.2)]

theorem claim10_blank_vendor_witness :
    (wtBlank1 ∈ ([wtBlank1, wtBlank2] : List Transaction) ∧
      (([wtBlank1, wtBlank2] : List Transaction).map (fun t => t.id)).Nodup ∧
      txVendorKey wtBlank1 = "" ∧
      ¬ ((1000000 : ℚ) < wtBlank1.amount) ∧
      ¬ ((500000 : ℚ) ≤ wtBlank1.amount ∧ wtBlank1.amount ≤ 1000000) ∧
      normCountry wtBlank1.vendor_country ∉ MEDIUM_RISK_COUNTRIES) ∧
    (∀ f ∈ (analyzeTransaction wtBlank1 [wtBlank1, wtBlank2]
        (buildDuplicateGroups [wtBlank1, wtBlank2])).factors,
      f.type ≠ "frequency_risk") ∧
    analyzeTransaction wtBlank1 [wtBlank1, wtBlank2]
        (buildDuplicateGroups [wtBlank1, wtBlank2]) = lowOutcome := by
  have h := claim10_blank_vendor wtBlank1 [wtBlank1, wtBlank2]
    (by with_unfolding_all decide) (by with_unfolding_all decide)
    (by with_unfolding_all decide)
  exact ⟨by with_unfolding_all decide, h.1,
    h.2 (by with_unfolding_all decide) (by with_unfolding_all decide)
      (by with_unfolding_all decide)⟩

/-- Claim C6: for either endpoint configuration (analysis: 10 requests per
1-hour window; reports: 20 per 24-hour window) and a caller whose first
request at `t0` opens a fresh window, with every further request before the
reset time: the first request is allowed and records count 1; exactly the
requests with index below the ceiling are allowed and the later ones are
denied with retry-after equal to the seconds remaining until reset rounded up;
every denial carries a positive retry-after; and a request arriving at or
after the reset time is allowed and restarts the window with count 1. -/
theorem claim6_rate_limiter (maxR : Nat) (windowMs : Int) (u : String)
    (t0 : Int) (ts : List Int)
    (hcfg : (maxR = MAX_REQUESTS_PER_WINDOW ∧ windowMs = RATE_LIMIT_WINDOW_MS) ∨
            (maxR = MAX_REPORTS_PER_WINDOW ∧ windowMs = REPORT_RATE_LIMIT_WINDOW_MS))
    (hts : ∀ t ∈ ts, t0 ≤ t ∧ t < t0 + windowMs) :
    (processTimes maxR windowMs u [] [t0]).2 = [(u, ⟨1, t0 + windowMs⟩)] ∧
    (processTimes maxR windowMs u [] (t0 :: ts)).1 =
      (t0 :: ts).mapIdx (fun i t =>
        if i < maxR then ((true : Bool), (none : Option Int))
        else (false, some (retrySeconds (t0 + windowMs) t))) ∧
    (∀ r ∈ (processTimes maxR windowMs u [] (t0 :: ts)).1, r.1 = false →
      ∃ s, r.2 = some s ∧ 0 < s) ∧
    (∀ t', t0 + windowMs ≤ t' →
      checkRateLimit maxR windowMs (processTimes maxR windowMs u [] (t0 :: ts)).2 u t' =
        ((true, none), [(u, ⟨1, t' + windowMs⟩)])) := by
  have hmax : 1 ≤ maxR := by
    rcases hcfg with ⟨h1, _⟩ | ⟨h1, _⟩ <;> subst h1 <;> decide
  have hin : ∀ t ∈ ts, t < t0 + windowMs := fun t ht => (hts t ht).2
  have hrest := processTimes_inWindow maxR windowMs u (t0 + windowMs) ts 1 hmax hin
  have hcons : processTimes maxR windowMs u [] (t0 :: ts) =
      ((true, none) ::
        (processTimes maxR windowMs u [(u, ⟨1, t0 + windowMs⟩)] ts).1,
       (processTimes maxR windowMs u [(u, ⟨1, t0 + windowMs⟩)] ts).2) := by
    simp only [processTimes, checkRateLimit_fresh]
  refine ⟨?_, ?_, ?_, ?_⟩
  · simp [processTimes, checkRateLimit_fresh]
  · rw [hcons, hrest]
    simp only [List.mapIdx_cons]
    rw [if_pos (by omega : 0 < maxR)]
    congr 1
    have hfun : (fun i t => if 1 + i < maxR then ((true : Bool), (none : Option Int))
        else (false, some (retrySeconds (t0 + windowMs) t))) =
        (fun (i : Nat) t => if i + 1 < maxR then ((true : Bool), (none : Option Int))
        else (false, some (retrySeconds (t0 + windowMs) t))) := by
      funext i x
      rw [show 1 + i = i + 1 by omega]
    rw [hfun]
  · intro r hr hfalse
    exact processTimes_denied_pos maxR windowMs u (t0 :: ts) [] r hr hfalse
  · intro t' ht'
    rw [hcons]
    simp only
    rw [hrest]
    simp only
    exact checkRateLimit_expired maxR windowMs u t' _ (t0 + windowMs) ht'

theorem claim6_rate_limiter_witness :
    (∀ t ∈ ([1, 2, 3, 4, 5, 6, 7, 8, 9, 10] : List Int),
      (0 : Int) ≤ t ∧ t < 0 + RATE_LIMIT_WINDOW_MS) ∧
    (processTimes MAX_REQUESTS_PER_WINDOW RATE_LIMIT_WINDOW_MS "u" [] [0]).2 =
      [("u", ⟨1, 0 + RATE_LIMIT_WINDOW_MS⟩)] ∧
    (processTimes MAX_REQUESTS_PER_WINDOW RATE_LIMIT_WINDOW_MS "u" []
        ((0 : Int) :: [1, 2, 3, 4, 5, 6, 7, 8, 9, 10])).1 =
      ((0 : Int) :: [1, 2, 3, 4, 5, 6, 7, 8, 9, 10]).mapIdx (fun i t =>
        if i < MAX_REQUESTS_PER_WINDOW then ((true : Bool), (none : Option Int))
        else (false, some (retrySeconds (0 + RATE_LIMIT_WINDOW_MS) t))) ∧
    checkRateLimit MAX_REQUESTS_PER_WINDOW RATE_LIMIT_WINDOW_MS
        (processTimes MAX_REQUESTS_PER_WINDOW RATE_LIMIT_WINDOW_MS "u" []
          ((0 : Int) :: [1, 2, 3, 4, 5, 6, 7, 8, 9, 10])).2 "u" RATE_LIMIT_WINDOW_MS =
      ((true, none), [("u", ⟨1, RATE_LIMIT_WINDOW_MS + RATE_LIMIT_WINDOW_MS⟩)]) := by
  have h := claim6_rate_limiter MAX_REQUESTS_PER_WINDOW RATE_LIMIT_WINDOW_MS "u" 0
    [1, 2, 3, 4, 5, 6, 7, 8, 9, 10] (Or.inl ⟨rfl, rfl⟩)
    (by with_unfolding_all decide)
  exact ⟨by with_unfolding_all decide, h.1, h.2.1,
    h.2.2.2 RATE_LIMIT_WINDOW_MS (by with_unfolding_all decide)⟩

/-- Claim C7: any failure of the narrative call during analysis — non-success
HTTP status, missing or unparsable content, or parsed entries whose ids match
no assessment — still leaves the complete deterministic assessment list in the
response; quota exhaustion (402) and upstream rate limiting (429) are surfaced
as distinct errors alongside those assessments; and any failure during report
generation yields an error response and persists no report. -/
theorem claim7_upstream_failure (as : List Assessment) (o : AIOutcome) :
    ((analyzeRespond as o).assessments.map detFields = as.map detFields) ∧
    ((analyzeRespond as o).assessments.length = as.length) ∧
    ((∀ es, o ≠ .parsed es) → (analyzeRespond as o).assessments = as) ∧
    (o = .httpError 429 →
      analyzeRespond as o =
        ⟨429, some "Rate limit exceeded. Please try again in a moment.", as⟩) ∧
    (o = .httpError 402 →
      analyzeRespond as o =
        ⟨402, some "AI credits exhausted. Please add credits to continue.", as⟩) ∧
    ((∀ es, o ≠ .parsed es) →
      (reportRespond o).persisted = false ∧ (reportRespond o).error.isSome ∧
        (reportRespond o).status ≠ 200) := by
  have hdet : (analyzeRespond as o).assessments.map detFields = as.map detFields := by
    cases o with
    | httpError s =>
      simp only [analyzeRespond]
      split_ifs <;> rfl
    | noContent => rfl
    | unparsable => rfl
    | parsed es => simpa [analyzeRespond] using mergeExplanations_detFields es as
  have hlen : (analyzeRespond as o).assessments.length = as.length := by
    have h2 := congrArg List.length hdet
    simpa using h2
  refine ⟨hdet, hlen, analyzeRespond_assessments_of_fail as o, ?_, ?_, ?_⟩
  · intro h; subst h; simp [analyzeRespond]
  · intro h; subst h; simp [analyzeRespond]
  · intro h
    cases o with
    | httpError s =>
      simp only [reportRespond]
      split_ifs <;> simp
    | noContent => simp [reportRespond]
    | unparsable => simp [reportRespond]
    | parsed es => exact absurd rfl (h es)

theorem claim7_upstream_failure_witness :
    (((analyzeRespond (assessBatch [wtHigh]) (.httpError 500)).assessments.map detFields =
        (assessBatch [wtHigh]).map detFields) ∧
      ((analyzeRespond (assessBatch [wtHigh]) (.httpError 500)).assessments.length =
        (assessBatch [wtHigh]).length) ∧
      ((∀ es, AIOutcome.httpError 500 ≠ .parsed es) →
        (analyzeRespond (assessBatch [wtHigh]) (.httpError 500)).assessments =
          assessBatch [wtHigh]) ∧
      (AIOutcome.httpError 500 = .httpError 429 →
        analyzeRespond (assessBatch [wtHigh]) (.httpError 500) =
          ⟨429, some "Rate limit exceeded. Please try again in a moment.",
            assessBatch [wtHigh]⟩) ∧
      (AIOutcome.httpError 500 = .httpError 402 →
        analyzeRespond (assessBatch [wtHigh]) (.httpError 500) =
          ⟨402, some "AI credits exhausted. Please add credits to continue.",
            assessBatch [wtHigh]⟩) ∧
      ((∀ es, AIOutcome.httpError 500 ≠ .parsed es) →
        (reportRespond (.httpError 500)).persisted = false ∧
          (reportRespond (.httpError 500)).error.isSome ∧
          (reportRespond (.httpError 500)).status ≠ 200)) :=
  claim7_upstream_failure (assessBatch [wtHigh]) (.httpError 500)

/-- Claim C8: the AI merge preserves every deterministic field of every
assessment — transaction id, tier, score, factor list, rule-based reason and
triggered-rules summary — so advisory text never overwrites the rule-based
reason; and each parsed entry whose transactionId matches some pending
assessment deposits exactly its two advisory fields onto the first matching
assessment. -/
theorem claim8_merge_frame (as : List Assessment) (es : List AIExplanation)
    (e : AIExplanation) :
    ((mergeExplanations as es).map detFields = as.map detFields) ∧
    ((applyExplanation as e).map detFields = as.map detFields) ∧
    ((∃ a ∈ as, a.transaction_id = e.transaction_id) →
      ∃ a' ∈ applyExplanation as e,
        a'.transaction_id = e.transaction_id ∧
        a'.audit_observation = some e.audit_observation ∧
        a'.suggested_action = some e.suggested_action) :=
  ⟨mergeExplanations_detFields es as, applyExplanation_detFields as e,
    applyExplanation_matched e as⟩

theorem claim8_merge_frame_witness :
    (∃ a ∈ assessBatch [wtHigh], a.transaction_id = wExplanation.transaction_id) ∧
    ((mergeExplanations (assessBatch [wtHigh]) [wExplanation]).map detFields =
        (assessBatch [wtHigh]).map detFields) ∧
    ((applyExplanation (assessBatch [wtHigh]) wExplanation).map detFields =
        (assessBatch [wtHigh]).map detFields) ∧
    (∃ a' ∈ applyExplanation (assessBatch [wtHigh]) wExplanation,
        a'.transaction_id = wExplanation.transaction_id ∧
        a'.audit_observation = some wExplanation.audit_observation ∧
        a'.suggested_action = some wExplanation.suggested_action) := by
  have h := claim8_merge_frame (assessBatch [wtHigh]) [wExplanation] wExplanation
  have hex : ∃ a ∈ assessBatch [wtHigh], a.transaction_id = wExplanation.transaction_id := by
    with_unfolding_all decide
  exact ⟨hex, h.1, h.2.1, h.2.2 hex⟩

/-- Claim C9: when the requested session id does not exist or belongs to a
different caller, the report entry point returns the distinct error response
carrying the session-not-found message surfaced verbatim through the
sanitizer (the spec quotes the message in lower case), and no report is
generated or persisted. -/
theorem claim9_session_not_found (sessions : List SessionRow) (sid uid : String)
    (o : AIOutcome)
    (h : ∀ s ∈ sessions, s.id = sid → s.user_id ≠ uid) :
    generateReport sessions sid uid o = ⟨500, some sessionNotFoundMsg, false⟩ ∧
    reportSafeMessage sessionNotFoundMsg = sessionNotFoundMsg ∧
    jsToLower sessionNotFoundMsg = "session not found or access denied" := by
  have hfind : findSession sessions sid uid = none := by
    rw [findSession, List.find?_eq_none]
    intro s hs hcontra
    simp only [Bool.and_eq_true, beq_iff_eq] at hcontra
    exact h s hs hcontra.1 hcontra.2
  have hsafe : reportSafeMessage sessionNotFoundMsg = sessionNotFoundMsg := by
    with_unfolding_all decide
  refine ⟨?_, hsafe, by with_unfolding_all decide⟩
  simp [generateReport, hfind, hsafe]

theorem claim9_session_not_found_witness :
    (∀ s ∈ [wSession], s.id = "s1" → s.user_id ≠ "bob") ∧
    (generateReport [wSession] "s1" "bob" .noContent =
        ⟨500, some sessionNotFoundMsg, false⟩ ∧
      reportSafeMessage sessionNotFoundMsg = sessionNotFoundMsg ∧
      jsToLower sessionNotFoundMsg = "session not found or access denied") :=
  ⟨by with_unfolding_all decide,
    claim9_session_not_found [wSession] "s1" "bob" .noContent
      (by with_unfolding_all decide)⟩
